import Mathlib

/-! logrole: permission-gated message views

A shallow embedding of `config/permission.go`, `server/messages.go` and the
key check of `server/serve.go`, followed by the properties proved about them.

Conventions of the embedding

* A Go `string` is a Lean `String`; a Go `*User` is an `Option config.User`
  (`none` is the nil pointer); a Go `error` is an `Option GoError` (`none` is nil).
* Package level mutable state (`userMap`) is passed explicitly.
* A handler returns the list of events it causes, in program order: the calls it
  issues to its collaborators (also those issued from a goroutine it starts) and
  the actions it performs on the `http.ResponseWriter`.
* Collaborators whose code is outside the three files (the `views.Client`
  provider, `services.Unopaque`, `render`, the query helpers) are fields of an
  environment record, so every theorem holds for all of their behaviours.
-/

set_option autoImplicit false

/-! ## Errors -/

/-- The `error` values the handlers tell apart. `errors.New` values and the two
sentinels of package `config` are compared by identity in Go, `*rest.Error` is
recognised by a type switch. -/
inductive GoError where
  /-- The sentinel `config.ErrTooOld`. -/
  | ErrTooOld
  /-- The sentinel `config.PermissionDenied`. -/
  | PermissionDenied
  /-- A `*rest.Error` with its `StatusCode` and `Title`. -/
  | restError (StatusCode : Int) (Title : String)
  /-- Any other error, such as `errors.New(msg)`. -/
  | errorsNew (msg : String)
  deriving DecidableEq, Repr

/-- The text `err.Error()`. -/
def GoError.Error : GoError → String
  | .ErrTooOld => "Cannot access this resource because its age exceeds the viewable limit"
  | .PermissionDenied => "You do not have permission to access that information"
  | .restError _ title => title
  | .errorsNew msg => msg

/-! ## Package config -/

namespace config

/-- The struct `User` of permission.go. -/
structure User where
  canViewNumMedia : Bool
  canViewMessages : Bool
  canViewMessageFrom : Bool
  canViewMessageTo : Bool
  deriving DecidableEq, Repr

/-- The struct `UserSettings` of permission.go. -/
structure UserSettings where
  CanViewNumMedia : Bool
  CanViewMessages : Bool
  CanViewMessageFrom : Bool
  CanViewMessageTo : Bool
  deriving DecidableEq, Repr

/-- The widest possible set of permissions. -/
def AllUserSettings : UserSettings :=
  { CanViewNumMedia := true
    CanViewMessages := true
    CanViewMessageFrom := true
    CanViewMessageTo := true }

/-- The constructor `NewUser`; a nil argument is replaced by the zero value. -/
def NewUser (us : Option UserSettings) : User :=
  let us : UserSettings := match us with
    | none => { CanViewNumMedia := false, CanViewMessages := false,
                CanViewMessageFrom := false, CanViewMessageTo := false }
    | some s => s
  { canViewNumMedia := us.CanViewNumMedia
    canViewMessages := us.CanViewMessages
    canViewMessageFrom := us.CanViewMessageFrom
    canViewMessageTo := us.CanViewMessageTo }

def User.CanViewMessages (u : User) : Bool :=
  u.canViewMessages

def User.CanViewNumMedia (u : User) : Bool :=
  u.CanViewMessages && u.canViewNumMedia

def User.CanViewMessageFrom (u : User) : Bool :=
  u.CanViewMessages && u.canViewMessageFrom

def User.CanViewMessageTo (u : User) : Bool :=
  u.CanViewMessages && u.canViewMessageTo

/-- The struct `Permission` of permission.go; a `time.Duration` is an integer. -/
structure Permission where
  maxResourceAge : Int
  deriving DecidableEq, Repr

def Permission.MaxResourceAge (p : Permission) : Int :=
  p.maxResourceAge

def NewPermission (maxResourceAge : Int) : Permission :=
  { maxResourceAge := maxResourceAge }

/-- The package variable `userMap`, a `map[string]*User`: `none` when the key
is absent, `some p` when it holds the pointer `p`. -/
abbrev UserMap := String → Option (Option User)

/-- The initial value `make(map[string]*User)`. -/
def emptyUserMap : UserMap := fun _ => none

/-- The assignment `userMap[name] = u`. -/
def AddUser (name : String) (u : Option User) (userMap : UserMap) : UserMap :=
  fun k => if k = name then some u else userMap k

/-- A registry built by a sequence of `AddUser` calls, first call first. -/
def registry (adds : List (String × Option User)) : UserMap :=
  adds.foldl (fun m p => AddUser p.1 p.2 m) emptyUserMap

/-- Keys of context values: `userKey` of this package, or a key of another package. -/
inductive CtxKey where
  | userKey
  | foreign (name : String)
  deriving DecidableEq, Repr

/-- Values stored in a context: a `*User`, or a value of another dynamic type. -/
inductive CtxVal where
  | userPtr (u : Option User)
  | foreign (v : String)
  deriving DecidableEq, Repr

/-- A `context.Context` as the chain of its `WithValue` layers, innermost last. -/
abbrev Context := List (CtxKey × CtxVal)

/-- The layer added by `context.WithValue(ctx, key, val)`. -/
def Context.WithValue (ctx : Context) (key : CtxKey) (val : CtxVal) : Context :=
  (key, val) :: ctx

/-- The lookup `ctx.Value(key)`: the outermost layer with that key, else nil. -/
def Context.Value : Context → CtxKey → Option CtxVal
  | [], _ => none
  | (k, v) :: rest, key => if k = key then some v else Context.Value rest key

/-- The multi-map `url.Values`. -/
abbrev Values := List (String × List String)

/-- The accessor `Values.Get`: first value stored under the key, else the empty string. -/
def Values.Get : Values → String → String
  | [], _ => ""
  | (k, vs) :: rest, key => if k = key then vs.headD "" else Values.Get rest key

/-- The parts of an `*http.Request` the code reads. -/
structure Request where
  /-- Result of `r.BasicAuth()`: user name and password when the header parses. -/
  basicAuth : Option (String × String)
  /-- The request context, `r.Context()`. -/
  ctx : Context
  /-- The path `r.URL.Path`. -/
  path : String
  /-- The parsed query `r.URL.Query()`. -/
  query : Values
  deriving DecidableEq, Repr

/-- A shallow copy of the request with a new context. -/
def Request.WithContext (r : Request) (ctx : Context) : Request :=
  { r with ctx := ctx }

/-- The function `AuthUser`: finds the authenticating user of the request and
stores it in the context of the returned request. -/
def AuthUser (userMap : UserMap) (r : Request) : Request × Option User × Option GoError :=
  match r.basicAuth with
  | none => (r, none, some (.errorsNew "No user provided"))
  | some (user, _) =>
    match userMap user with
    | some u =>
      let r := r.WithContext (r.ctx.WithValue .userKey (.userPtr u))
      (r, u, none)
    | none => (r, none, some (.errorsNew ("No user named " ++ user)))

/-- The function `GetUser`: the user stored in the context of the request, if any. -/
def GetUser (r : Request) : Option User × Bool :=
  match r.ctx.Value .userKey with
  | some val =>
    match val with
    | .userPtr u => (u, true)
    | .foreign _ => (none, false)
  | none => (none, false)

end config

/-! ## Library types and functions used by package server -/

/-- A byte. -/
abbrev Byte := Fin 256

/-- The array type `[32]byte` of the secret key. -/
abbrev Key := Fin 32 → Byte

namespace types

/-- The struct `types.NullString`: a string that may be absent. -/
structure NullString where
  Valid : Bool
  String : String
  deriving DecidableEq, Repr

end types

namespace twilio

/-- Modelled from the spec: the constant `twilio.APIVersion` of the provider's
library, the version segment every next-page path starts with. -/
def APIVersion : String := "2010-04-01"

end twilio

namespace strings

/-- The test `strings.HasPrefix(s, p)`. -/
def HasPrefix (s p : String) : Bool :=
  p.toList.isPrefixOf s.toList

/-- Worker of `Replace` on the characters still to scan: `n` replacements are
left, `skip` characters of the occurrence just replaced are still to drop. -/
def replaceChars (old new : List Char) : List Char → Nat → Nat → List Char
  | [], 0, _ => []
  | [], _ + 1, _ => if old = [] then new else []
  | _ :: t, n, skip + 1 => replaceChars old new t n skip
  | c :: t, 0, 0 => c :: replaceChars old new t 0 0
  | c :: t, n + 1, 0 =>
    if old = [] then new ++ c :: replaceChars old new t n 0
    else if old.isPrefixOf (c :: t) then new ++ replaceChars old new t n (old.length - 1)
    else c :: replaceChars old new t (n + 1) 0

/-- The function `strings.Replace(s, old, new, n)` for `n ≥ 0`: the first `n`
non-overlapping occurrences of `old` are replaced by `new`. -/
def Replace (s old new : String) (n : Nat) : String :=
  String.mk (replaceChars old.toList new.toList s.toList n 0)

end strings

/-! ## Package views, as far as the handlers see it -/

namespace views

/-- A `views.Message`: a provider record wrapped for one user. -/
structure Message where
  /-- The user the record was wrapped for. -/
  user : config.User
  /-- The identifier of the record. -/
  sid : String
  /-- The media count of the provider record. -/
  numMedia : Nat
  deriving DecidableEq, Repr

/-- A `views.MessagePage`: the messages of one page and the provider's
next-page URI. -/
structure MessagePage where
  messages : List Message
  nextPageURI : types.NullString
  deriving DecidableEq, Repr

/-- The result `new(views.MessagePage)`. -/
def MessagePage.new : MessagePage :=
  { messages := [], nextPageURI := { Valid := false, String := "" } }

/-- The response of the media fetch, `mediaResp` of messages.go. -/
structure mediaResp where
  Err : Option GoError
  URLs : List String
  deriving DecidableEq, Repr

/-- The interface `views.Client`, the provider. Each method is a function of
its arguments; a pointer result is an `Option`, the error is `none` for nil. -/
structure Client where
  GetMessage : Option config.User → String → Option Message × Option GoError
  GetMessagePage : Option config.User → config.Values → Option MessagePage × Option GoError
  GetNextMessagePage : Option config.User → String → Option MessagePage × Option GoError
  GetMediaURLs : Option config.User → String → List String × Option GoError

/-- Modelled from the spec: the method `views.Message.NumMedia`, whose code is
in package views. The count is visible only to a user with `CanViewNumMedia`;
any other user gets the error `PermissionDenied` instead of a count. -/
def Message.NumMedia (m : Message) : Nat × Option GoError :=
  if m.user.CanViewNumMedia then (m.numMedia, none) else (0, some .PermissionDenied)

end views

/-! ## Package server -/

namespace server

open config views

/-- The two templates of messages.go. -/
inductive Template where
  | messageInstanceTemplate
  | messageListTemplate
  deriving DecidableEq, Repr

/-- The struct `messageInstanceData`; the location is left out. -/
structure messageInstanceData where
  Message : Option Message
  Media : Option mediaResp
  ShowMediaByDefault : Bool
  deriving DecidableEq, Repr

/-- The struct `messageData`; the location is left out. -/
structure messageData where
  Page : Option MessagePage
  EncryptedNextPage : String
  Query : Values
  Err : String
  MaxResourceAge : Int
  deriving DecidableEq, Repr

/-- The field `Data` of `baseData`: what a template is rendered with. The
duration and the location finder of `baseData` are left out. -/
inductive PageData where
  | messageInstance (d : messageInstanceData)
  | messageList (d : messageData)
  deriving DecidableEq, Repr

/-- What a handler does, in program order. -/
inductive Event where
  /-- The call `Client.GetMediaURLs(u, sid)`, issued from the goroutine. -/
  | GetMediaURLs (u : Option User) (sid : String)
  /-- The call `Client.GetMessage(u, sid)`. -/
  | GetMessage (u : Option User) (sid : String)
  /-- The call `Client.GetMessagePage(u, data)`. -/
  | GetMessagePage (u : Option User) (data : Values)
  /-- The call `Client.GetNextMessagePage(u, uri)`. -/
  | GetNextMessagePage (u : Option User) (uri : String)
  /-- The call `services.Unopaque(token, key)`. -/
  | Unopaque (token : String)
  /-- The receive `<-rch` that joins the media fetch into the handler. -/
  | receiveMedia
  /-- The response `rest.ServerError(w, r, err)`, status 500. -/
  | ServerError (err : GoError)
  /-- The response `rest.Forbidden(w, r, &rest.Error{Title: title})`, status 403. -/
  | Forbidden (title : String)
  /-- The response `rest.NotFound(w, r)`, status 404. -/
  | NotFound
  /-- The call `w.Header().Set(key, value)`. -/
  | SetHeader (key value : String)
  /-- The call `w.WriteHeader(code)`. -/
  | WriteHeader (code : Nat)
  /-- The call `render(w, r, tpl, "base", data)` with the error it returned. -/
  | render (tpl : Template) (data : PageData) (err : Option GoError)
  /-- A run-time panic; the handler stops. -/
  | panic (msg : String)
  deriving DecidableEq, Repr

/-- Whether the event is a call to a collaborator: the provider or the cursor
codec. -/
def Event.isCall : Event → Bool
  | .GetMediaURLs _ _ => true
  | .GetMessage _ _ => true
  | .GetMessagePage _ _ => true
  | .GetNextMessagePage _ _ => true
  | Event.Unopaque _ => true
  | _ => false

/-- Whether the event is a call of `render`. -/
def Event.isRender : Event → Bool
  | .render _ _ _ => true
  | _ => false

/-- The status code the client receives: it is fixed by the first event that
writes the response header. A render that succeeds writes the body and with it
the default 200; a render that fails is taken to have written nothing. -/
def statusCode : List Event → Option Nat
  | [] => none
  | .ServerError _ :: _ => some 500
  | .Forbidden _ :: _ => some 403
  | .NotFound :: _ => some 404
  | .WriteHeader code :: _ => some code
  | .render _ _ none :: _ => some 200
  | _ :: rest => statusCode rest

/-- The functions of this repository that messages.go calls and whose code is
in other files. They are arbitrary functions here. -/
structure Extern where
  /-- The method `(*views.Message).CanViewProperty`. -/
  CanViewProperty : Option Message → String → Bool
  /-- The method `(*views.Message).NumMedia`. -/
  NumMedia : Option Message → Nat × Option GoError
  /-- The method `(*views.MessagePage).NextPageURI`. -/
  NextPageURI : Option MessagePage → types.NullString
  /-- The function `services.Unopaque`. -/
  Unopaque : String → Option Key → String × Option GoError
  /-- The function `getEncryptedNextPage`. -/
  getEncryptedNextPage : types.NullString → Option Key → String
  /-- The function `setNextPageValsOnQuery`: the query after the call. -/
  setNextPageValsOnQuery : String → Values → Values
  /-- The function `setPageFilters`: the query and the filter data after the
  call, and the error returned. -/
  setPageFilters : Values → Values → Values × Values × Option GoError
  /-- The function `render`: the error returned. -/
  render : Template → PageData → Option GoError

/-- The route `^/messages/(?P<sid>(MM|SM)[a-f0-9]{32})$`: the submatches of a
path that matches, the nil slice for any other path. -/
def messageInstanceRoute.FindStringSubmatch (path : String) : List String :=
  let cs := path.toList
  let lead := "/messages/".toList
  let sid := cs.drop lead.length
  let kind := sid.take 2
  let hex := sid.drop 2
  if lead.isPrefixOf cs ∧ (kind = "MM".toList ∨ kind = "SM".toList) ∧ hex.length = 32 ∧
      hex.all (fun c => ('a' ≤ c ∧ c ≤ 'f') ∨ ('0' ≤ c ∧ c ≤ '9')) then
    [path, String.mk sid, String.mk kind]
  else []

/-- The struct `messageInstanceServer`; logger and location finder are left out. -/
structure messageInstanceServer where
  Client : Client
  ShowMediaByDefault : Bool

/-- The handler `(*messageInstanceServer).ServeHTTP`. The goroutine that
fetches the media URLs is started before `GetMessage` is called and does not
depend on its result; its call is listed where it is started, and `rch` is the
value it leaves in the channel. -/
def messageInstanceServer.ServeHTTP (x : Extern) (s : messageInstanceServer) (r : Request) :
    List Event :=
  match GetUser r with
  | (_, false) => [.ServerError (.errorsNew "No user available")]
  | (u, true) =>
    match messageInstanceRoute.FindStringSubmatch r.path with
    | _ :: sid :: _ =>
      let rch : mediaResp :=
        let (urls, err) := s.Client.GetMediaURLs u sid
        { URLs := urls, Err := err }
      let (message, err) := s.Client.GetMessage u sid
      [.GetMediaURLs u sid, .GetMessage u sid] ++
      match err with
      | none =>
        if !x.CanViewProperty message "Sid" then
          [.Forbidden "Cannot view this message"]
        else
          let data : messageInstanceData :=
            { Message := message, Media := none, ShowMediaByDefault := s.ShowMediaByDefault }
          let (numMedia, err) := x.NumMedia message
          let (data, joined) : messageInstanceData × List Event :=
            match err with
            | some err => ({ data with Media := some { Err := some err, URLs := [] } }, [])
            | none =>
              if numMedia > 0 then ({ data with Media := some rch }, [.receiveMedia])
              else (data, [])
          let rerr := x.render .messageInstanceTemplate (.messageInstance data)
          joined ++
          [.SetHeader "Content-Type" "text/html; charset=utf-8",
           .render .messageInstanceTemplate (.messageInstance data) rerr] ++
          match rerr with
          | some err => [.ServerError err]
          | none => []
      | some .PermissionDenied => [.Forbidden GoError.PermissionDenied.Error]
      | some .ErrTooOld => [.Forbidden GoError.ErrTooOld.Error]
      | some (.restError code title) =>
        if code = 404 then [.NotFound] else [.ServerError (.restError code title)]
      | some err => [.ServerError err]
    | _ => [.panic "index out of range"]

/-- The struct `messageListServer`; logger and location finder are left out. -/
structure messageListServer where
  Client : Client
  PageSize : Nat
  SecretKey : Option Key
  MaxResourceAge : Int

/-- The method `(*messageListServer).renderError`. -/
def messageListServer.renderError (x : Extern) (s : messageListServer) (code : Nat)
    (query : Values) (err : Option GoError) : List Event :=
  match err with
  | none => [.panic "called renderError with a nil error"]
  | some err =>
    let str := strings.Replace err.Error "twilio: " "" 1
    let data : PageData := .messageList
      { Err := str, Query := query, Page := some MessagePage.new, EncryptedNextPage := "",
        MaxResourceAge := s.MaxResourceAge }
    let rerr := x.render .messageListTemplate data
    [.SetHeader "Content-Type" "text/html; charset=utf-8", .WriteHeader code,
     .render .messageListTemplate data rerr] ++
    match rerr with
    | some err => [.ServerError err]
    | none => []

/-- Lines 196 to 224 of `(*messageListServer).ServeHTTP`: the page fetch. The
result is either the events of a request that ended here, or the events so far
with the query, the page and the error of the provider call. -/
def messageListServer.fetchPage (x : Extern) (s : messageListServer) (u : User)
    (r : Request) :
    List Event ⊕ (List Event × Values × Option MessagePage × Option GoError) :=
  let query := r.query
  let opaqueNext := query.Get "next"
  if opaqueNext ≠ "" then
    let (next, nextErr) := x.Unopaque opaqueNext s.SecretKey
    match nextErr with
    | some nextErr =>
      let err := GoError.errorsNew
        ("Could not decrypt `next` query parameter: " ++ nextErr.Error)
      .inl (Event.Unopaque opaqueNext :: s.renderError x 400 query (some err))
    | none =>
      if !strings.HasPrefix next ("/" ++ twilio.APIVersion) then
        .inl (Event.Unopaque opaqueNext ::
          s.renderError x 400 query (some (.errorsNew "Invalid next page uri")))
      else
        let (page, err) := s.Client.GetNextMessagePage (some u) next
        let query := x.setNextPageValsOnQuery next query
        .inr ([Event.Unopaque opaqueNext, .GetNextMessagePage (some u) next], query, page, err)
  else
    let data : Values := [("PageSize", [toString s.PageSize])]
    let (query, data, filterErr) := x.setPageFilters query data
    match filterErr with
    | some filterErr => .inl (s.renderError x 400 query (some filterErr))
    | none =>
      let (page, err) := s.Client.GetMessagePage (some u) data
      .inr ([.GetMessagePage (some u) data], query, page, err)

/-- Lines 225 to 262 of `(*messageListServer).ServeHTTP`: the response to a
page fetch that returned `page` and `err`. The goroutine that fetches the next
page into the cache is listed where it is started. -/
def messageListServer.respond (x : Extern) (s : messageListServer) (u : User)
    (query : Values) (page : Option MessagePage) (err : Option GoError) : List Event :=
  match err with
  | some (.restError code title) =>
    if code = 400 then s.renderError x 400 query (some (.restError code title))
    else if code = 404 then [.NotFound]
    else [.ServerError (.restError code title)]
  | some err => [.ServerError err]
  | none =>
    let n := x.NextPageURI page
    let prefetch : List Event :=
      if n.Valid then [.GetNextMessagePage (some u) n.String] else []
    let data : PageData := .messageList
      { Page := page, Query := query, MaxResourceAge := s.MaxResourceAge, Err := "",
        EncryptedNextPage := x.getEncryptedNextPage (x.NextPageURI page) s.SecretKey }
    let rerr := x.render .messageListTemplate data
    prefetch ++
    [.SetHeader "Content-Type" "text/html; charset=utf-8",
     .render .messageListTemplate data rerr] ++
    match rerr with
    | some err => s.renderError x 500 query (some err)
    | none => []

/-- The handler `(*messageListServer).ServeHTTP`. -/
def messageListServer.ServeHTTP (x : Extern) (s : messageListServer) (r : Request) :
    List Event :=
  match GetUser r with
  | (_, false) => [.ServerError (.errorsNew "No user available")]
  | (none, true) => [.panic "invalid memory address or nil pointer dereference"]
  | (some u, true) =>
    if !u.CanViewMessages then
      [.Forbidden "Access denied"]
    else
      match s.fetchPage x u r with
      | .inl events => events
      | .inr (events, query, page, err) => events ++ s.respond x u query page err

end server
/-! ## The key check of `NewServer` (serve.go) -/

namespace server

open config views

/-- The struct `Settings`; the provider handle and the location are left out. -/
structure Settings where
  PublicHost : String
  AllowUnencryptedTraffic : Bool
  Users : List (String × String)
  PageSize : Nat
  SecretKey : Option Key
  MaxResourceAge : Int
  ShowMediaByDefault : Bool

/-- The package variable `theUser`. -/
def theUser : User := NewUser (some AllUserSettings)

/-- What `NewServer` sets up: the user registry after the `AddUser` calls, the
two message servers, and whether the authentication handlers are installed. -/
structure Server where
  userMap : UserMap
  mls : messageListServer
  mis : messageInstanceServer
  authenticated : Bool

/-- The loop `for i := 0; i < len(settings.SecretKey); i++` of `NewServer`,
entered at index `i` with `validKey == false`. One unit of fuel pays for one
execution of the loop body. The result is the final `validKey` and the number
of times the body ran, or `none` when the fuel is used up first. -/
def NewServer.keyLoop (key : Key) : Nat → Nat → Option (Bool × Nat)
  | 0, i => if i < 32 then none else some (false, 0)
  | fuel + 1, i =>
    if h : i < 32 then
      if key ⟨i, h⟩ ≠ 0 then some (true, 1)
      else (NewServer.keyLoop key fuel (i + 1)).map (fun p => (p.1, p.2 + 1))
    else some (false, 0)

/-- The function `NewServer` up to the construction of the message servers.
`NewClient` stands for `views.NewClient`. A panic is an `Except.error` with
the panic value. The key loop is given `len(settings.SecretKey)` units of fuel. -/
def NewServer (NewClient : Option Key → Permission → Client) (settings : Settings)
    (userMap : UserMap) : Except String Server :=
  match settings.SecretKey with
  | none => .error "runtime error: invalid memory address or nil pointer dereference"
  | some key =>
    match NewServer.keyLoop key 32 0 with
    | none => .error "key loop out of fuel"
    | some (validKey, _) =>
      if !validKey then
        .error "server: nil secret key in settings"
      else
        let userMap := settings.Users.foldl (fun m p => AddUser p.1 (some theUser) m) userMap
        let permission := NewPermission settings.MaxResourceAge
        let vc := NewClient settings.SecretKey permission
        .ok { userMap := userMap
              mls := { Client := vc, PageSize := settings.PageSize,
                       SecretKey := settings.SecretKey,
                       MaxResourceAge := settings.MaxResourceAge }
              mis := { Client := vc, ShowMediaByDefault := settings.ShowMediaByDefault }
              authenticated := decide (settings.Users.length > 0) }

end server

/-! ## The cursor codec (package services) -/

namespace services

/-- Modelled from the spec: the authenticated-encryption primitive behind the
cursor codec, a library outside this repository. `Seal` encrypts a plaintext
under a key and a nonce into ciphertext and tag, `Open` authenticates and
decrypts; `NonceSize` and `Overhead` are the sizes of nonce and tag. -/
structure AEAD where
  NonceSize : Nat
  Overhead : Nat
  Seal : Key → List Byte → String → List Byte
  Open : Key → List Byte → List Byte → Option String

namespace base64url

/-- Modelled from the spec: the URL-safe base64 alphabet. -/
def alphabet : List Char :=
  "ABCDEFGHIJKLMNOPQRSTUVWXYZabcdefghijklmnopqrstuvwxyz0123456789-_".toList

/-- The character of a 6-bit value. -/
def encodeSextet (n : Nat) : Char :=
  alphabet.getD n 'A'

/-- The 6-bit value of a character of the alphabet. -/
def decodeSextet (c : Char) : Option Nat :=
  let i := alphabet.indexOf c
  if i < 64 then some i else none

/-- A byte from a number below 256. -/
def byte (n : Nat) : Byte :=
  ⟨n % 256, Nat.mod_lt _ (by decide)⟩

/-- Modelled from the spec: URL-safe base64 without padding, three bytes to
four characters. -/
def encodeBytes : List Byte → List Char
  | [] => []
  | [a] => [encodeSextet (a.val / 4), encodeSextet (a.val % 4 * 16)]
  | [a, b] =>
    [encodeSextet (a.val / 4), encodeSextet (a.val % 4 * 16 + b.val / 16),
     encodeSextet (b.val % 16 * 4)]
  | a :: b :: c :: rest =>
    encodeSextet (a.val / 4) :: encodeSextet (a.val % 4 * 16 + b.val / 16) ::
    encodeSextet (b.val % 16 * 4 + c.val / 64) :: encodeSextet (c.val % 64) ::
    encodeBytes rest

/-- Modelled from the spec: the inverse of `encodeBytes`; `none` for a text
that is not unpadded URL-safe base64. -/
def decodeChars : List Char → Option (List Byte)
  | [] => some []
  | [_] => none
  | [p, q] => do
    let i ← decodeSextet p
    let j ← decodeSextet q
    pure [byte (i * 4 + j / 16)]
  | [p, q, r] => do
    let i ← decodeSextet p
    let j ← decodeSextet q
    let k ← decodeSextet r
    pure [byte (i * 4 + j / 16), byte (j % 16 * 16 + k / 4)]
  | p :: q :: r :: s :: rest => do
    let i ← decodeSextet p
    let j ← decodeSextet q
    let k ← decodeSextet r
    let l ← decodeSextet s
    let tail ← decodeChars rest
    pure (byte (i * 4 + j / 16) :: byte (j % 16 * 16 + k / 4) :: byte (k % 4 * 64 + l) :: tail)

end base64url

/-- Modelled from the spec: `services.Opaque`, whose code is in package
services. The fresh random nonce is the argument `nonce`; the token is the
base64url text of the nonce followed by ciphertext and tag. -/
def Opaque (A : AEAD) (nonce : List Byte) (plaintext : String) (key : Key) : String :=
  String.mk (base64url.encodeBytes (nonce ++ A.Seal key nonce plaintext))

/-- Modelled from the spec: `services.Unopaque`, whose code is in package
services. It fails when the token is not base64url, when the decoded bytes are
shorter than nonce and tag, or when authentication fails, and then returns no
plaintext. -/
def Unopaque (A : AEAD) (token : String) (key : Key) : String × Option GoError :=
  match base64url.decodeChars token.toList with
  | none => ("", some (.errorsNew "DecodeError: token is not URL-safe base64"))
  | some bytes =>
    if bytes.length < A.NonceSize + A.Overhead then
      ("", some (.errorsNew "DecodeError: token is too short"))
    else
      match A.Open key (bytes.take A.NonceSize) (bytes.drop A.NonceSize) with
      | none => ("", some (.errorsNew "DecodeError: authentication failed"))
      | some plaintext => (plaintext, none)

end services

namespace server

/-- Modelled from the spec: `getEncryptedNextPage`, whose code is in another
file of package server. The encrypted form of the next-page URI when the page
carries one, the empty string when it carries none. -/
def getEncryptedNextPage (A : services.AEAD) (nonce : List Byte) (npuri : types.NullString)
    (key : Key) : String :=
  if npuri.Valid then services.Opaque A nonce npuri.String key else ""

end server

/-! ## Concrete collaborators, for evaluating the handlers -/

namespace demo

open config views server

/-- A user who may view messages but not the media count. -/
def noMediaUser : User :=
  NewUser (some { CanViewNumMedia := false, CanViewMessages := true,
                  CanViewMessageFrom := true, CanViewMessageTo := true })

/-- A user who may not view messages. -/
def noMessagesUser : User :=
  NewUser (some { CanViewNumMedia := true, CanViewMessages := false,
                  CanViewMessageFrom := true, CanViewMessageTo := true })

/-- A message identifier accepted by the route. -/
def sid : String := "MM0123456789abcdef0123456789abcdef"

/-- A request of `user` for the message `sid`. -/
def instanceRequest (user : User) : Request :=
  { basicAuth := none, ctx := [(.userKey, .userPtr (some user))],
    path := "/messages/" ++ sid, query := [] }

/-- A request of `user` for the message list with the given query. -/
def listRequest (user : User) (query : Values) : Request :=
  { basicAuth := none, ctx := [(.userKey, .userPtr (some user))],
    path := "/messages", query := query }

/-- A provider whose `GetMessage` and page fetches return the given results
and whose media fetch returns one URL. -/
def client (message : Option Message × Option GoError)
    (page : Option MessagePage × Option GoError) : Client :=
  { GetMessage := fun _ _ => message
    GetMessagePage := fun _ _ => page
    GetNextMessagePage := fun _ _ => page
    GetMediaURLs := fun _ _ => (["https://media.example/1"], none) }

/-- The functions outside messages.go: the view methods as the spec describes
them, a cursor codec that accepts exactly the tokens starting with `ok:`, no
filters, and a render that succeeds. -/
def collaborators : Extern :=
  { CanViewProperty := fun m _ =>
      match m with
      | some m => m.user.CanViewMessages
      | none => false
    NumMedia := fun m =>
      match m with
      | some m => m.NumMedia
      | none => (0, some (.errorsNew "nil message"))
    NextPageURI := fun p =>
      match p with
      | some p => p.nextPageURI
      | none => { Valid := false, String := "" }
    Unopaque := fun token _ =>
      if strings.HasPrefix token "ok:" then (String.mk (token.toList.drop 3), none)
      else ("", some (.errorsNew "bad token"))
    getEncryptedNextPage := fun n _ => if n.Valid then "ok:" ++ n.String else ""
    setNextPageValsOnQuery := fun _ q => q
    setPageFilters := fun q d => (q, d, none)
    render := fun _ _ => none }

/-- A key whose last byte alone is not zero. -/
def lastByteKey : Key := fun i => if i = 31 then 1 else 0

/-- A toy authenticated encryption for texts of ASCII characters: the tag is
sixteen bytes holding the first key byte, the ciphertext is the plaintext. -/
def toyAEAD : services.AEAD :=
  { NonceSize := 24
    Overhead := 16
    Seal := fun key _ m =>
      List.replicate 16 (key 0) ++ m.toList.map (fun c => services.base64url.byte c.toNat)
    Open := fun key _ box =>
      if box.take 16 = List.replicate 16 (key 0) then
        some (String.mk ((box.drop 16).map (fun b => Char.ofNat b.val)))
      else none }

/-- A nonce of twenty-four bytes. -/
def nonce : List Byte := List.replicate 24 7

end demo
/-! ## Properties of package config -/

/-- C1: for each of the 16 settings values, the user made by `NewUser` reports
`CanViewMessages` as configured and every sub-capability as the conjunction of
`CanViewMessages` with its own flag, so no sub-capability holds without it. -/
theorem NewUser_capabilities (us : config.UserSettings) :
    (config.NewUser (some us)).CanViewMessages = us.CanViewMessages ∧
    (config.NewUser (some us)).CanViewMessageFrom =
      ((config.NewUser (some us)).CanViewMessages && us.CanViewMessageFrom) ∧
    (config.NewUser (some us)).CanViewMessageTo =
      ((config.NewUser (some us)).CanViewMessages && us.CanViewMessageTo) ∧
    (config.NewUser (some us)).CanViewNumMedia =
      ((config.NewUser (some us)).CanViewMessages && us.CanViewNumMedia) ∧
    ((config.NewUser (some us)).CanViewMessages = false →
      (config.NewUser (some us)).CanViewMessageFrom = false ∧
      (config.NewUser (some us)).CanViewMessageTo = false ∧
      (config.NewUser (some us)).CanViewNumMedia = false) := by
  refine ⟨rfl, rfl, rfl, rfl, ?_⟩
  intro h
  simp only [config.User.CanViewMessageFrom, config.User.CanViewMessageTo,
    config.User.CanViewNumMedia, h, Bool.false_and, and_self]

/-- C1 at the settings that grant everything but `CanViewMessages`. -/
theorem NewUser_capabilities_witness :
    (config.NewUser (some ⟨true, false, true, true⟩)).CanViewMessageFrom = false ∧
    (config.NewUser (some ⟨true, false, true, true⟩)).CanViewMessageTo = false ∧
    (config.NewUser (some ⟨true, false, true, true⟩)).CanViewNumMedia = false :=
  (NewUser_capabilities ⟨true, false, true, true⟩).2.2.2.2 rfl

/-- `AddUser` calls for other names leave the entry of `name` as it was. -/
theorem foldl_AddUser_other (name : String) (l : List (String × Option config.User))
    (h : ∀ p ∈ l, p.1 ≠ name) (m : config.UserMap) :
    (l.foldl (fun m p => config.AddUser p.1 p.2 m) m) name = m name := by
  induction l generalizing m with
  | nil => rfl
  | cons p t ih =>
    have hp : name ≠ p.1 := fun e => h p (List.mem_cons_self _ _) e.symm
    rw [List.foldl_cons, ih (fun q hq => h q (List.mem_cons_of_mem _ hq))]
    simp [config.AddUser, hp]

/-- A name that no `AddUser` call mentions is absent from the registry. -/
theorem registry_absent (name : String) (adds : List (String × Option config.User))
    (h : ∀ p ∈ adds, p.1 ≠ name) : config.registry adds name = none := by
  unfold config.registry
  rw [foldl_AddUser_other name adds h]
  rfl

/-- The registry holds for `name` the user of the last `AddUser` call for it. -/
theorem registry_last (name : String) (u : Option config.User)
    (before after : List (String × Option config.User)) (h : ∀ p ∈ after, p.1 ≠ name) :
    config.registry (before ++ (name, u) :: after) name = some u := by
  unfold config.registry
  rw [List.foldl_append, List.foldl_cons, foldl_AddUser_other name after h]
  simp [config.AddUser]

/-- C7: over a registry built by `AddUser` calls, `AuthUser` returns the request
unchanged with a nil user and an error when the request has no basic-auth
credentials or names a user no `AddUser` call registered; when the name was
registered, last with user `u`, it returns `u`, no error, and a request on
which `GetUser` returns `(u, true)`. `GetUser` on a request whose context holds
no user returns `(nil, false)`. -/
theorem AuthUser_GetUser (adds : List (String × Option config.User)) (r : config.Request) :
    (r.basicAuth = none →
      ∃ err, config.AuthUser (config.registry adds) r = (r, none, some err)) ∧
    (∀ name pw, r.basicAuth = some (name, pw) → (∀ p ∈ adds, p.1 ≠ name) →
      ∃ err, config.AuthUser (config.registry adds) r = (r, none, some err)) ∧
    (∀ name pw u before after, r.basicAuth = some (name, pw) →
      adds = before ++ (name, u) :: after → (∀ p ∈ after, p.1 ≠ name) →
      ∃ r', config.AuthUser (config.registry adds) r = (r', u, none) ∧
        config.GetUser r' = (u, true)) ∧
    ((∀ u, r.ctx.Value .userKey ≠ some (.userPtr u)) → config.GetUser r = (none, false)) := by
  refine ⟨?_, ?_, ?_, ?_⟩
  · intro h
    exact ⟨.errorsNew "No user provided", by simp [config.AuthUser, h]⟩
  · intro name pw h hn
    exact ⟨.errorsNew ("No user named " ++ name),
      by simp [config.AuthUser, h, registry_absent name adds hn]⟩
  · intro name pw u before after h hadds hn
    subst hadds
    refine ⟨r.WithContext (r.ctx.WithValue .userKey (.userPtr u)),
      by simp [config.AuthUser, h, registry_last name u before after hn], ?_⟩
    simp [config.GetUser, config.Request.WithContext, config.Context.WithValue,
      config.Context.Value]
  · intro h
    unfold config.GetUser
    cases hv : r.ctx.Value .userKey with
    | none => rfl
    | some val =>
      cases val with
      | userPtr u => exact absurd hv (h u)
      | foreign v => rfl

/-- C7 at a registry of two users and a request authenticated as the second. -/
theorem AuthUser_GetUser_witness :
    ∃ r', config.AuthUser
        (config.registry [("alice", some demo.noMessagesUser), ("bob", some demo.noMediaUser)])
        { basicAuth := some ("bob", "secret"), ctx := [], path := "/messages", query := [] }
        = (r', some demo.noMediaUser, none) ∧
      config.GetUser r' = (some demo.noMediaUser, true) :=
  (AuthUser_GetUser [("alice", some demo.noMessagesUser), ("bob", some demo.noMediaUser)]
    { basicAuth := some ("bob", "secret"), ctx := [], path := "/messages", query := [] }).2.2.1
    "bob" "secret" (some demo.noMediaUser) [("alice", some demo.noMessagesUser)] [] rfl rfl
    (by simp)

/-! ## The key check of NewServer -/

/-- The key loop entered at index `i` with the `32 - i` units of fuel that are
left ends within that many iterations, and ends with `validKey` set exactly
when a byte at index `i` or later is not zero. -/
theorem keyLoop_spec (key : Key) : ∀ fuel i, i + fuel = 32 →
    ∃ v n, server.NewServer.keyLoop key fuel i = some (v, n) ∧ n ≤ fuel ∧
      (v = true ↔ ∃ j : Fin 32, i ≤ j.val ∧ key j ≠ 0) := by
  intro fuel
  induction fuel with
  | zero =>
    intro i hi
    refine ⟨false, 0, ?_, Nat.le_refl _, ?_⟩
    · have : ¬ i < 32 := by omega
      simp [server.NewServer.keyLoop, this]
    · constructor
      · intro h
        cases h
      · rintro ⟨j, hj, _⟩
        have := j.isLt
        omega
  | succ fuel ih =>
    intro i hi
    have hlt : i < 32 := by omega
    by_cases hk : key ⟨i, hlt⟩ = 0
    · obtain ⟨v, n, hrun, hn, hv⟩ := ih (i + 1) (by omega)
      refine ⟨v, n + 1, ?_, by omega, ?_⟩
      · simp [server.NewServer.keyLoop, hlt, hk, hrun]
      · rw [hv]
        constructor
        · rintro ⟨j, hj, hne⟩
          exact ⟨j, by omega, hne⟩
        · rintro ⟨j, hj, hne⟩
          refine ⟨j, ?_, hne⟩
          rcases Nat.eq_or_lt_of_le hj with h | h
          · exfalso
            apply hne
            have : j = ⟨i, hlt⟩ := Fin.ext h.symm
            rw [this]
            exact hk
          · exact h
    · refine ⟨true, 1, ?_, by omega, ?_⟩
      · simp [server.NewServer.keyLoop, hlt, hk]
      · simp only [true_iff]
        exact ⟨⟨i, hlt⟩, Nat.le_refl _, hk⟩

/-- C10: for settings with a non-nil key, `NewServer` panics with
"server: nil secret key in settings" exactly when all 32 key bytes are zero; a
key with a non-zero byte at any index is accepted; and the key loop ends
after at most 32 executions of its body. -/
theorem NewServer_key_check (NewClient : Option Key → config.Permission → views.Client)
    (settings : server.Settings) (userMap : config.UserMap) (key : Key)
    (hkey : settings.SecretKey = some key) :
    (server.NewServer NewClient settings userMap = .error "server: nil secret key in settings"
      ↔ ∀ i : Fin 32, key i = 0) ∧
    ((∃ i : Fin 32, key i ≠ 0) →
      ∃ srv, server.NewServer NewClient settings userMap = .ok srv) ∧
    (∃ v n, server.NewServer.keyLoop key 32 0 = some (v, n) ∧ n ≤ 32) := by
  obtain ⟨v, n, hrun, hn, hv⟩ := keyLoop_spec key 32 0 rfl
  have hv' : v = true ↔ ∃ j : Fin 32, key j ≠ 0 := by
    rw [hv]
    constructor
    · rintro ⟨j, _, h⟩
      exact ⟨j, h⟩
    · rintro ⟨j, h⟩
      exact ⟨j, Nat.zero_le _, h⟩
  refine ⟨?_, ?_, ⟨v, n, hrun, hn⟩⟩
  · cases v with
    | true =>
      obtain ⟨j, hj⟩ := hv'.mp rfl
      simp only [server.NewServer, hkey, hrun]
      constructor
      · intro h
        simp at h
      · intro h
        exact absurd (h j) hj
    | false =>
      simp only [server.NewServer, hkey, hrun]
      constructor
      · intro _ i
        by_contra hne
        have := hv'.mpr ⟨i, hne⟩
        cases this
      · intro _
        simp
  · intro hex
    have hvt : v = true := hv'.mpr hex
    subst hvt
    simp [server.NewServer, hkey, hrun]

/-- C10 at the key whose last byte alone is not zero. -/
theorem NewServer_key_check_witness :
    ∃ srv, server.NewServer (fun _ _ => demo.client (none, none) (none, none))
      { PublicHost := "localhost", AllowUnencryptedTraffic := false, Users := [],
        PageSize := 50, SecretKey := some demo.lastByteKey, MaxResourceAge := 0,
        ShowMediaByDefault := false }
      config.emptyUserMap = .ok srv :=
  (NewServer_key_check (fun _ _ => demo.client (none, none) (none, none))
    { PublicHost := "localhost", AllowUnencryptedTraffic := false, Users := [],
      PageSize := 50, SecretKey := some demo.lastByteKey, MaxResourceAge := 0,
      ShowMediaByDefault := false }
    config.emptyUserMap demo.lastByteKey rfl).2.1 ⟨31, by decide⟩

/-! ## The message instance handler -/

/-- C3: when `GetMessage` returns a non-nil error, the handler answers
Forbidden for `PermissionDenied` and `ErrTooOld`, NotFound for a `*rest.Error`
with status code 404 and ServerError for every other error, and it returns
without calling `render`. -/
theorem messageInstance_error_response (x : server.Extern) (s : server.messageInstanceServer)
    (r : config.Request) (u : Option config.User) (full sid : String) (rest : List String)
    (msg : Option views.Message) (err : GoError)
    (hu : config.GetUser r = (u, true))
    (hroute : server.messageInstanceRoute.FindStringSubmatch r.path = full :: sid :: rest)
    (hget : s.Client.GetMessage u sid = (msg, some err)) :
    ((err = .PermissionDenied ∨ err = .ErrTooOld) →
      s.ServeHTTP x r = [.GetMediaURLs u sid, .GetMessage u sid, .Forbidden err.Error] ∧
      server.statusCode (s.ServeHTTP x r) = some 403) ∧
    (∀ title, err = .restError 404 title →
      s.ServeHTTP x r = [.GetMediaURLs u sid, .GetMessage u sid, .NotFound] ∧
      server.statusCode (s.ServeHTTP x r) = some 404) ∧
    ((err ≠ .PermissionDenied ∧ err ≠ .ErrTooOld ∧ ∀ title, err ≠ .restError 404 title) →
      s.ServeHTTP x r = [.GetMediaURLs u sid, .GetMessage u sid, .ServerError err] ∧
      server.statusCode (s.ServeHTTP x r) = some 500) ∧
    (∀ e ∈ s.ServeHTTP x r, e.isRender = false) := by
  cases err with
  | ErrTooOld =>
    simp [server.messageInstanceServer.ServeHTTP, hu, hroute, hget, server.statusCode,
      server.Event.isRender]
  | PermissionDenied =>
    simp [server.messageInstanceServer.ServeHTTP, hu, hroute, hget, server.statusCode,
      server.Event.isRender]
  | restError code title =>
    by_cases hc : code = 404
    · simp [server.messageInstanceServer.ServeHTTP, hu, hroute, hget, server.statusCode,
        server.Event.isRender, hc]
    · simp [server.messageInstanceServer.ServeHTTP, hu, hroute, hget, server.statusCode,
        server.Event.isRender, hc]
  | errorsNew m =>
    simp [server.messageInstanceServer.ServeHTTP, hu, hroute, hget, server.statusCode,
      server.Event.isRender]

/-- C3 at a provider that reports the message as missing. -/
theorem messageInstance_error_response_witness :
    (server.messageInstanceServer.ServeHTTP demo.collaborators
        { Client := demo.client (none, some (.restError 404 "not found")) (none, none),
          ShowMediaByDefault := false }
        (demo.instanceRequest demo.noMediaUser)
      = [.GetMediaURLs (some demo.noMediaUser) demo.sid,
         .GetMessage (some demo.noMediaUser) demo.sid, .NotFound]) ∧
    server.statusCode (server.messageInstanceServer.ServeHTTP demo.collaborators
        { Client := demo.client (none, some (.restError 404 "not found")) (none, none),
          ShowMediaByDefault := false }
        (demo.instanceRequest demo.noMediaUser)) = some 404 :=
  (messageInstance_error_response demo.collaborators
    { Client := demo.client (none, some (.restError 404 "not found")) (none, none),
      ShowMediaByDefault := false }
    (demo.instanceRequest demo.noMediaUser) (some demo.noMediaUser)
    ("/messages/" ++ demo.sid) demo.sid ["MM"] none (.restError 404 "not found")
    (by decide) (by decide) rfl).2.1 "not found" rfl

/-! ## The message list handler -/

/-- The error page issues no call to a collaborator. -/
theorem renderError_no_call (x : server.Extern) (s : server.messageListServer) (code : Nat)
    (query : config.Values) (err : Option GoError) :
    ∀ e ∈ s.renderError x code query err, e.isCall = false := by
  intro e he
  unfold server.messageListServer.renderError at he
  cases err with
  | none =>
    simp at he
    subst he
    rfl
  | some err =>
    simp only at he
    split at he <;> simp at he <;> rcases he with h | h | h <;> try (subst h; rfl)
    rcases h with h | h <;> subst h <;> rfl

/-- The error page for a non-nil error has the status code it is called with. -/
theorem renderError_status (x : server.Extern) (s : server.messageListServer) (code : Nat)
    (query : config.Values) (err : GoError) :
    server.statusCode (s.renderError x code query (some err)) = some code := by
  simp [server.messageListServer.renderError, server.statusCode]

/-- The only call the response stage issues is the prefetch of the next page. -/
theorem respond_calls (x : server.Extern) (s : server.messageListServer) (u : config.User)
    (query : config.Values) (page : Option views.MessagePage) (err : Option GoError) :
    ∀ e ∈ s.respond x u query page err, e.isCall = true →
      err = none ∧ (x.NextPageURI page).Valid = true ∧
      e = .GetNextMessagePage (some u) (x.NextPageURI page).String := by
  intro e he hcall
  unfold server.messageListServer.respond at he
  split at he
  · split at he
    · rw [renderError_no_call x s _ _ _ e he] at hcall
      cases hcall
    · split at he <;> simp at he <;> subst he <;> cases hcall
  · simp at he
    subst he
    cases hcall
  · simp only [List.append_assoc, List.mem_append] at he
    rcases he with he | he | he
    · split at he
      · rename_i hvalid
        simp at he
        exact ⟨rfl, hvalid, he⟩
      · simp at he
    · simp at he
      rcases he with h | h <;> subst h <;> cases hcall
    · split at he
      · rw [renderError_no_call x s _ _ _ e he] at hcall
        cases hcall
      · simp at he

/-- C9: for a user who cannot view messages the list handler answers Forbidden
and issues no call at all: not `Unopaque`, not `GetMessagePage`, not
`GetNextMessagePage`, and no prefetch. -/
theorem messageList_denied (x : server.Extern) (s : server.messageListServer)
    (r : config.Request) (u : config.User)
    (hu : config.GetUser r = (some u, true)) (hdeny : u.CanViewMessages = false) :
    s.ServeHTTP x r = [.Forbidden "Access denied"] ∧
    server.statusCode (s.ServeHTTP x r) = some 403 ∧
    (∀ e ∈ s.ServeHTTP x r, e.isCall = false) := by
  have h : s.ServeHTTP x r = [.Forbidden "Access denied"] := by
    simp [server.messageListServer.ServeHTTP, hu, hdeny]
  rw [h]
  refine ⟨rfl, rfl, ?_⟩
  intro e he
  simp at he
  subst he
  rfl

/-- C9 at a request that carries a cursor. -/
theorem messageList_denied_witness :
    server.messageListServer.ServeHTTP demo.collaborators
      { Client := demo.client (none, none) (some views.MessagePage.new, none), PageSize := 50,
        SecretKey := some demo.lastByteKey, MaxResourceAge := 0 }
      (demo.listRequest demo.noMessagesUser [("next", ["ok:/2010-04-01/Messages"])])
      = [.Forbidden "Access denied"] :=
  (messageList_denied demo.collaborators
    { Client := demo.client (none, none) (some views.MessagePage.new, none), PageSize := 50,
      SecretKey := some demo.lastByteKey, MaxResourceAge := 0 }
    (demo.listRequest demo.noMessagesUser [("next", ["ok:/2010-04-01/Messages"])])
    demo.noMessagesUser (by decide) (by decide)).1

/-- C2: for a user who can view messages and a request with a non-empty `next`
parameter, `GetNextMessagePage` is called exactly when `Unopaque` succeeds and
the decoded string starts with "/" followed by the API version, and then the
page fetch is the call with the decoded string, the only later call being the
prefetch of the page after the one fetched; in every other case the response
has status 400 and no page operation of the provider is called.
`GetMessagePage` is called in neither case. -/
theorem messageList_next_cursor (x : server.Extern) (s : server.messageListServer)
    (r : config.Request) (u : config.User)
    (hu : config.GetUser r = (some u, true)) (hview : u.CanViewMessages = true)
    (hnext : r.query.Get "next" ≠ "") :
    ((∃ usr uri, server.Event.GetNextMessagePage usr uri ∈ s.ServeHTTP x r) ↔
      ((x.Unopaque (r.query.Get "next") s.SecretKey).2 = none ∧
        strings.HasPrefix (x.Unopaque (r.query.Get "next") s.SecretKey).1
          ("/" ++ twilio.APIVersion) = true)) ∧
    (((x.Unopaque (r.query.Get "next") s.SecretKey).2 = none ∧
        strings.HasPrefix (x.Unopaque (r.query.Get "next") s.SecretKey).1
          ("/" ++ twilio.APIVersion) = true) →
      ∃ rest, s.ServeHTTP x r =
        server.Event.Unopaque (r.query.Get "next") ::
        .GetNextMessagePage (some u) (x.Unopaque (r.query.Get "next") s.SecretKey).1 :: rest ∧
        ∀ e ∈ rest, e.isCall = true →
          (s.Client.GetNextMessagePage (some u)
            (x.Unopaque (r.query.Get "next") s.SecretKey).1).2 = none ∧
          e = .GetNextMessagePage (some u)
            (x.NextPageURI (s.Client.GetNextMessagePage (some u)
              (x.Unopaque (r.query.Get "next") s.SecretKey).1).1).String) ∧
    (¬ ((x.Unopaque (r.query.Get "next") s.SecretKey).2 = none ∧
        strings.HasPrefix (x.Unopaque (r.query.Get "next") s.SecretKey).1
          ("/" ++ twilio.APIVersion) = true) →
      server.statusCode (s.ServeHTTP x r) = some 400 ∧
      ∀ usr uri, server.Event.GetNextMessagePage usr uri ∉ s.ServeHTTP x r) ∧
    (∀ usr data, server.Event.GetMessagePage usr data ∉ s.ServeHTTP x r) := by
  have hserve : s.ServeHTTP x r =
      match s.fetchPage x u r with
      | .inl events => events
      | .inr (events, query, page, err) => events ++ s.respond x u query page err := by
    simp [server.messageListServer.ServeHTTP, hu, hview]
  rcases hdec : x.Unopaque (r.query.Get "next") s.SecretKey with ⟨next, nextErr⟩
  cases nextErr with
  | some nextErr =>
    have hfetch : s.fetchPage x u r = .inl (server.Event.Unopaque (r.query.Get "next") ::
        s.renderError x 400 r.query (some (GoError.errorsNew
          ("Could not decrypt `next` query parameter: " ++ nextErr.Error)))) := by
      simp [server.messageListServer.fetchPage, hnext, hdec]
    rw [hserve, hfetch]
    have hno : ∀ e ∈ (server.Event.Unopaque (r.query.Get "next") ::
        s.renderError x 400 r.query (some (GoError.errorsNew
          ("Could not decrypt `next` query parameter: " ++ nextErr.Error)))),
        (∀ usr uri, e ≠ .GetNextMessagePage usr uri) ∧ ∀ usr d, e ≠ .GetMessagePage usr d := by
      intro e he
      rcases List.mem_cons.mp he with h | h
      · subst h
        exact ⟨fun _ _ h => (by cases h), fun _ _ h => (by cases h)⟩
      · have := renderError_no_call x s _ _ _ e h
        constructor
        · intro usr uri h'
          subst h'
          cases this
        · intro usr d h'
          subst h'
          cases this
    refine ⟨?_, ?_, ?_, ?_⟩
    · constructor
      · rintro ⟨usr, uri, hmem⟩
        exact absurd rfl ((hno _ hmem).1 usr uri)
      · rintro ⟨h, _⟩
        cases h
    · rintro ⟨h, _⟩
      cases h
    · intro _
      refine ⟨?_, fun usr uri hmem => (hno _ hmem).1 usr uri rfl⟩
      simp [server.statusCode, server.messageListServer.renderError]
    · intro usr d hmem
      exact (hno _ hmem).2 usr d rfl
  | none =>
    by_cases hpre : strings.HasPrefix next ("/" ++ twilio.APIVersion) = true
    · have hfetch : s.fetchPage x u r = .inr
          ([server.Event.Unopaque (r.query.Get "next"), .GetNextMessagePage (some u) next],
           x.setNextPageValsOnQuery next r.query,
           (s.Client.GetNextMessagePage (some u) next).1,
           (s.Client.GetNextMessagePage (some u) next).2) := by
        simp [server.messageListServer.fetchPage, hnext, hdec, hpre]
      rw [hserve, hfetch]
      refine ⟨?_, ?_, ?_, ?_⟩
      · constructor
        · intro _
          exact ⟨rfl, hpre⟩
        · intro _
          exact ⟨some u, next, by simp⟩
      · intro _
        refine ⟨_, rfl, ?_⟩
        intro e he hcall
        have := respond_calls x s u _ _ _ e he hcall
        exact ⟨this.1, this.2.2⟩
      · intro h
        exact absurd ⟨rfl, hpre⟩ h
      · intro usr d hmem
        simp only [List.cons_append, List.nil_append, List.mem_cons] at hmem
        rcases hmem with h | h | h
        · cases h
        · cases h
        · have := (respond_calls x s u _ _ _ _ h rfl).2.2
          cases this
    · have hfetch : s.fetchPage x u r = .inl (server.Event.Unopaque (r.query.Get "next") ::
          s.renderError x 400 r.query (some (.errorsNew "Invalid next page uri"))) := by
        simp [server.messageListServer.fetchPage, hnext, hdec, hpre]
      rw [hserve, hfetch]
      have hno : ∀ e ∈ (server.Event.Unopaque (r.query.Get "next") ::
          s.renderError x 400 r.query (some (.errorsNew "Invalid next page uri"))),
          (∀ usr uri, e ≠ .GetNextMessagePage usr uri) ∧ ∀ usr d, e ≠ .GetMessagePage usr d := by
        intro e he
        rcases List.mem_cons.mp he with h | h
        · subst h
          exact ⟨fun _ _ h => (by cases h), fun _ _ h => (by cases h)⟩
        · have := renderError_no_call x s _ _ _ e h
          constructor
          · intro usr uri h'
            subst h'
            cases this
          · intro usr d h'
            subst h'
            cases this
      refine ⟨?_, ?_, ?_, ?_⟩
      · constructor
        · rintro ⟨usr, uri, hmem⟩
          exact absurd rfl ((hno _ hmem).1 usr uri)
        · rintro ⟨_, h⟩
          exact absurd h hpre
      · rintro ⟨_, h⟩
        exact absurd h hpre
      · intro _
        refine ⟨?_, fun usr uri hmem => (hno _ hmem).1 usr uri rfl⟩
        simp [server.statusCode, server.messageListServer.renderError]
      · intro usr d hmem
        exact (hno _ hmem).2 usr d rfl

/-- C2 at a request whose cursor does not decode. -/
theorem messageList_next_cursor_witness :
    server.statusCode (server.messageListServer.ServeHTTP demo.collaborators
      { Client := demo.client (none, none) (some views.MessagePage.new, none), PageSize := 50,
        SecretKey := some demo.lastByteKey, MaxResourceAge := 0 }
      (demo.listRequest demo.noMediaUser [("next", ["tampered"])])) = some 400 ∧
    ∀ usr uri, server.Event.GetNextMessagePage usr uri ∉
      server.messageListServer.ServeHTTP demo.collaborators
        { Client := demo.client (none, none) (some views.MessagePage.new, none), PageSize := 50,
          SecretKey := some demo.lastByteKey, MaxResourceAge := 0 }
        (demo.listRequest demo.noMediaUser [("next", ["tampered"])]) :=
  (messageList_next_cursor demo.collaborators
    { Client := demo.client (none, none) (some views.MessagePage.new, none), PageSize := 50,
      SecretKey := some demo.lastByteKey, MaxResourceAge := 0 }
    (demo.listRequest demo.noMediaUser [("next", ["tampered"])])
    demo.noMediaUser (by decide) (by decide) (by decide)).2.2.1 (by decide)

/-! ## Media and the message instance handler -/

/-- C6: the media fetch is received into the handler, and a media URL is part
of the rendered data, only when `GetMessage` returned no error,
`CanViewProperty("Sid")` holds and `NumMedia` returned a count above zero
without error. When `GetMessage` fails or the Sid is not viewable, nothing is
rendered and the media result is never received, whatever the fetch returned. -/
theorem media_joined_only_when_viewable (x : server.Extern)
    (s : server.messageInstanceServer) (r : config.Request) :
    ((server.Event.receiveMedia ∈ s.ServeHTTP x r ∨
        ∃ d e m url, server.Event.render .messageInstanceTemplate (.messageInstance d) e
            ∈ s.ServeHTTP x r ∧ d.Media = some m ∧ url ∈ m.URLs) →
      ∃ u full sid rest msg n,
        config.GetUser r = (u, true) ∧
        server.messageInstanceRoute.FindStringSubmatch r.path = full :: sid :: rest ∧
        s.Client.GetMessage u sid = (msg, none) ∧
        x.CanViewProperty msg "Sid" = true ∧
        x.NumMedia msg = (n, none) ∧ 0 < n) ∧
    (∀ u full sid rest, config.GetUser r = (u, true) →
      server.messageInstanceRoute.FindStringSubmatch r.path = full :: sid :: rest →
      ((s.Client.GetMessage u sid).2 ≠ none ∨
        x.CanViewProperty (s.Client.GetMessage u sid).1 "Sid" = false) →
      ∀ e ∈ s.ServeHTTP x r, e.isRender = false ∧ e ≠ .receiveMedia) := by
  constructor
  · intro h
    rcases hg : config.GetUser r with ⟨u, b⟩
    cases b with
    | false =>
      exfalso
      simp [server.messageInstanceServer.ServeHTTP, hg] at h
    | true =>
      rcases hr : server.messageInstanceRoute.FindStringSubmatch r.path with
        _ | ⟨full, _ | ⟨sid, rest⟩⟩
      · exfalso
        simp [server.messageInstanceServer.ServeHTTP, hg, hr] at h
      · exfalso
        simp [server.messageInstanceServer.ServeHTTP, hg, hr] at h
      · rcases hget : s.Client.GetMessage u sid with ⟨msg, err⟩
        cases err with
        | some err =>
          exfalso
          cases err with
          | ErrTooOld => simp [server.messageInstanceServer.ServeHTTP, hg, hr, hget] at h
          | PermissionDenied => simp [server.messageInstanceServer.ServeHTTP, hg, hr, hget] at h
          | restError code title =>
            by_cases hc : code = 404 <;>
              simp [server.messageInstanceServer.ServeHTTP, hg, hr, hget, hc] at h
          | errorsNew m => simp [server.messageInstanceServer.ServeHTTP, hg, hr, hget] at h
        | none =>
          cases hsid : x.CanViewProperty msg "Sid" with
          | false =>
            exfalso
            simp [server.messageInstanceServer.ServeHTTP, hg, hr, hget, hsid] at h
          | true =>
            rcases hnm : x.NumMedia msg with ⟨n, nerr⟩
            cases nerr with
            | some nerr =>
              exfalso
              simp only [server.messageInstanceServer.ServeHTTP, hg, hr, hget, hsid, hnm] at h
              cases hre : x.render server.Template.messageInstanceTemplate
                (server.PageData.messageInstance
                  { Message := msg, Media := some { Err := some nerr, URLs := [] },
                    ShowMediaByDefault := s.ShowMediaByDefault }) <;>
                simp [hre] at h
            | none =>
              by_cases hn : 0 < n
              · exact ⟨u, full, sid, rest, msg, n, rfl, rfl, hget, hsid, hnm, hn⟩
              · exfalso
                simp only [server.messageInstanceServer.ServeHTTP, hg, hr, hget, hsid, hnm] at h
                cases hre : x.render server.Template.messageInstanceTemplate
                  (server.PageData.messageInstance
                    { Message := msg, Media := none,
                      ShowMediaByDefault := s.ShowMediaByDefault }) <;>
                  simp [hre, hn] at h
  · intro u full sid rest hg hr hfail e he
    rcases hget : s.Client.GetMessage u sid with ⟨msg, err⟩
    rw [hget] at hfail
    cases err with
    | some err =>
      cases err with
      | ErrTooOld =>
        simp [server.messageInstanceServer.ServeHTTP, hg, hr, hget] at he
        rcases he with h | h | h <;> subst h <;> simp [server.Event.isRender]
      | PermissionDenied =>
        simp [server.messageInstanceServer.ServeHTTP, hg, hr, hget] at he
        rcases he with h | h | h <;> subst h <;> simp [server.Event.isRender]
      | restError code title =>
        by_cases hc : code = 404 <;>
          simp [server.messageInstanceServer.ServeHTTP, hg, hr, hget, hc] at he <;>
          rcases he with h | h | h <;> subst h <;> simp [server.Event.isRender]
      | errorsNew m =>
        simp [server.messageInstanceServer.ServeHTTP, hg, hr, hget] at he
        rcases he with h | h | h <;> subst h <;> simp [server.Event.isRender]
    | none =>
      have hsid : x.CanViewProperty msg "Sid" = false := by
        rcases hfail with h | h
        · exact absurd rfl h
        · exact h
      simp [server.messageInstanceServer.ServeHTTP, hg, hr, hget, hsid] at he
      rcases he with h | h | h <;> subst h <;> simp [server.Event.isRender]

/-- C6 at a message the user may not view: nothing is rendered and the media
fetch is never received. -/
theorem media_joined_only_when_viewable_witness :
    ∀ e ∈ server.messageInstanceServer.ServeHTTP demo.collaborators
        { Client := demo.client (none, some .PermissionDenied) (none, none),
          ShowMediaByDefault := true }
        (demo.instanceRequest demo.noMessagesUser),
      e.isRender = false ∧ e ≠ .receiveMedia :=
  (media_joined_only_when_viewable demo.collaborators
    { Client := demo.client (none, some .PermissionDenied) (none, none),
      ShowMediaByDefault := true }
    (demo.instanceRequest demo.noMessagesUser)).2 (some demo.noMessagesUser)
    ("/messages/" ++ demo.sid) demo.sid ["MM"] (by decide) (by decide) (Or.inl (by decide))

/-- C5, the claim as stated fails: for a user without `CanViewNumMedia` and a
message with three media items, the handler does call `Client.GetMediaURLs`. -/
theorem media_fetch_issued_counterexample :
    demo.noMediaUser.CanViewNumMedia = false ∧
    server.Event.GetMediaURLs (some demo.noMediaUser) demo.sid ∈
      server.messageInstanceServer.ServeHTTP demo.collaborators
        { Client := demo.client
            (some { user := demo.noMediaUser, sid := demo.sid, numMedia := 3 }, none)
            (none, none),
          ShowMediaByDefault := true }
        (demo.instanceRequest demo.noMediaUser) := by
  decide

/-- C5 as amended: for a user without `CanViewNumMedia` who may view the
message, `NumMedia` yields an error, the rendered `Media` carries that error
and no URL, and the result of the media fetch is never received; the call
`Client.GetMediaURLs` itself is issued once, before `GetMessage`. -/
theorem hidden_media_count (x : server.Extern) (s : server.messageInstanceServer)
    (r : config.Request) (u : config.User) (full sid : String) (rest : List String)
    (msg : views.Message)
    (hu : config.GetUser r = (some u, true))
    (hroute : server.messageInstanceRoute.FindStringSubmatch r.path = full :: sid :: rest)
    (hget : s.Client.GetMessage (some u) sid = (some msg, none))
    (huser : msg.user = u) (hdeny : u.CanViewNumMedia = false)
    (hsid : x.CanViewProperty (some msg) "Sid" = true)
    (hnum : x.NumMedia (some msg) = msg.NumMedia) :
    msg.NumMedia = (0, some .PermissionDenied) ∧
    (∃ rerr tail, s.ServeHTTP x r =
      [.GetMediaURLs (some u) sid, .GetMessage (some u) sid,
       .SetHeader "Content-Type" "text/html; charset=utf-8",
       .render .messageInstanceTemplate
         (.messageInstance
           { Message := some msg, Media := some { Err := some .PermissionDenied, URLs := [] },
             ShowMediaByDefault := s.ShowMediaByDefault }) rerr] ++ tail ∧
      ∀ e ∈ tail, e.isCall = false ∧ e ≠ .receiveMedia) ∧
    server.Event.receiveMedia ∉ s.ServeHTTP x r ∧
    (s.ServeHTTP x r).count (.GetMediaURLs (some u) sid) = 1 := by
  have hnm : msg.NumMedia = (0, some .PermissionDenied) := by
    simp [views.Message.NumMedia, huser, hdeny]
  rw [hnm] at hnum
  refine ⟨hnm, ?_⟩
  cases hre : x.render server.Template.messageInstanceTemplate
      (server.PageData.messageInstance
        { Message := some msg, Media := some { Err := some .PermissionDenied, URLs := [] },
          ShowMediaByDefault := s.ShowMediaByDefault }) with
  | none =>
    have htrace : s.ServeHTTP x r =
        [.GetMediaURLs (some u) sid, .GetMessage (some u) sid,
         .SetHeader "Content-Type" "text/html; charset=utf-8",
         .render .messageInstanceTemplate
           (.messageInstance
             { Message := some msg,
               Media := some { Err := some .PermissionDenied, URLs := [] },
               ShowMediaByDefault := s.ShowMediaByDefault }) none] := by
      simp [server.messageInstanceServer.ServeHTTP, hu, hroute, hget, hsid, hnum, hre]
    rw [htrace]
    refine ⟨⟨none, [], by simp, by simp⟩, by simp, by simp [List.count_cons]⟩
  | some rerr =>
    have htrace : s.ServeHTTP x r =
        [.GetMediaURLs (some u) sid, .GetMessage (some u) sid,
         .SetHeader "Content-Type" "text/html; charset=utf-8",
         .render .messageInstanceTemplate
           (.messageInstance
             { Message := some msg,
               Media := some { Err := some .PermissionDenied, URLs := [] },
               ShowMediaByDefault := s.ShowMediaByDefault }) (some rerr),
         .ServerError rerr] := by
      simp [server.messageInstanceServer.ServeHTTP, hu, hroute, hget, hsid, hnum, hre]
    rw [htrace]
    refine ⟨⟨some rerr, [.ServerError rerr], by simp, by simp [server.Event.isCall]⟩,
      by simp, by simp [List.count_cons]⟩

/-- C5 as amended, at a message with three media items. -/
theorem hidden_media_count_witness :
    server.Event.receiveMedia ∉
      server.messageInstanceServer.ServeHTTP demo.collaborators
        { Client := demo.client
            (some { user := demo.noMediaUser, sid := demo.sid, numMedia := 3 }, none)
            (none, none),
          ShowMediaByDefault := true }
        (demo.instanceRequest demo.noMediaUser) :=
  (hidden_media_count demo.collaborators
    { Client := demo.client
        (some { user := demo.noMediaUser, sid := demo.sid, numMedia := 3 }, none)
        (none, none),
      ShowMediaByDefault := true }
    (demo.instanceRequest demo.noMediaUser) demo.noMediaUser
    ("/messages/" ++ demo.sid) demo.sid ["MM"]
    { user := demo.noMediaUser, sid := demo.sid, numMedia := 3 }
    (by decide) (by decide) rfl rfl (by decide) (by decide) rfl).2.2.1

/-! ## Provider errors -/

/-- A page fetch stage that reaches the response stage made exactly one
provider call, after decoding the cursor if there was one, and hands on the
page and the error of that call. -/
theorem fetchPage_inr (x : server.Extern) (s : server.messageListServer) (u : config.User)
    (r : config.Request) (events : List server.Event) (query : config.Values)
    (page : Option views.MessagePage) (err : Option GoError)
    (h : s.fetchPage x u r = .inr (events, query, page, err)) :
    (∃ next, events = [server.Event.Unopaque (r.query.Get "next"),
          .GetNextMessagePage (some u) next] ∧
        s.Client.GetNextMessagePage (some u) next = (page, err)) ∨
    (∃ data, events = [.GetMessagePage (some u) data] ∧
        s.Client.GetMessagePage (some u) data = (page, err)) := by
  unfold server.messageListServer.fetchPage at h
  simp only at h
  split at h
  · split at h
    · cases h
    · split at h
      · cases h
      · left
        simp only [Sum.inr.injEq, Prod.mk.injEq] at h
        obtain ⟨h1, _, h3, h4⟩ := h
        exact ⟨_, h1.symm, Prod.ext h3 h4⟩
  · split at h
    · cases h
    · right
      simp only [Sum.inr.injEq, Prod.mk.injEq] at h
      obtain ⟨h1, _, h3, h4⟩ := h
      exact ⟨_, h1.symm, Prod.ext h3 h4⟩

/-- C4, the claim as stated fails: a `*rest.Error` with status code 403 from
the provider gets the server-error response in the instance handler and in the
list handler, not the forbidden response. -/
theorem forbidden_class_counterexample :
    server.messageInstanceServer.ServeHTTP demo.collaborators
        { Client := demo.client (none, some (.restError 403 "Forbidden")) (none, none),
          ShowMediaByDefault := false }
        (demo.instanceRequest demo.noMediaUser)
      = [.GetMediaURLs (some demo.noMediaUser) demo.sid,
         .GetMessage (some demo.noMediaUser) demo.sid,
         .ServerError (.restError 403 "Forbidden")] ∧
    server.statusCode (server.messageInstanceServer.ServeHTTP demo.collaborators
        { Client := demo.client (none, some (.restError 403 "Forbidden")) (none, none),
          ShowMediaByDefault := false }
        (demo.instanceRequest demo.noMediaUser)) ≠ some 403 ∧
    server.statusCode (server.messageListServer.ServeHTTP demo.collaborators
        { Client := demo.client (none, none) (none, some (.restError 403 "Forbidden")),
          PageSize := 50, SecretKey := some demo.lastByteKey, MaxResourceAge := 0 }
        (demo.listRequest demo.noMediaUser [])) = some 500 := by
  decide

/-- C4 as amended: in the instance handler `PermissionDenied` and `ErrTooOld`
from `GetMessage` get the forbidden response with status 403; a `*rest.Error`
with status code 403 gets the server-error response with status 500, from
`GetMessage` in the instance handler and from `GetMessagePage` or
`GetNextMessagePage` in the list handler. -/
theorem forbidden_class_responses (x : server.Extern) :
    (∀ (s : server.messageInstanceServer) (r : config.Request) (u : Option config.User)
        (full sid : String) (rest : List String) (msg : Option views.Message) (err : GoError),
      config.GetUser r = (u, true) →
      server.messageInstanceRoute.FindStringSubmatch r.path = full :: sid :: rest →
      s.Client.GetMessage u sid = (msg, some err) →
      ((err = .PermissionDenied ∨ err = .ErrTooOld) →
        s.ServeHTTP x r = [.GetMediaURLs u sid, .GetMessage u sid, .Forbidden err.Error] ∧
        server.statusCode (s.ServeHTTP x r) = some 403) ∧
      (∀ title, err = .restError 403 title →
        s.ServeHTTP x r =
          [.GetMediaURLs u sid, .GetMessage u sid, .ServerError (.restError 403 title)] ∧
        server.statusCode (s.ServeHTTP x r) = some 500)) ∧
    (∀ (s : server.messageListServer) (r : config.Request) (u : config.User)
        (events : List server.Event) (query : config.Values)
        (page : Option views.MessagePage) (title : String),
      config.GetUser r = (some u, true) → u.CanViewMessages = true →
      s.fetchPage x u r = .inr (events, query, page, some (.restError 403 title)) →
      s.ServeHTTP x r = events ++ [.ServerError (.restError 403 title)] ∧
      (∀ e ∈ events, e.isCall = true) ∧
      server.statusCode (s.ServeHTTP x r) = some 500) := by
  constructor
  · intro s r u full sid rest msg err hu hroute hget
    constructor
    · rintro (h | h) <;> subst h <;>
        simp [server.messageInstanceServer.ServeHTTP, hu, hroute, hget, server.statusCode,
          GoError.Error]
    · intro title h
      subst h
      simp [server.messageInstanceServer.ServeHTTP, hu, hroute, hget, server.statusCode]
  · intro s r u events query page title hu hview hfetch
    have htrace : s.ServeHTTP x r = events ++ [.ServerError (.restError 403 title)] := by
      simp [server.messageListServer.ServeHTTP, hu, hview, hfetch,
        server.messageListServer.respond]
    rw [htrace]
    rcases fetchPage_inr x s u r events query page _ hfetch with ⟨next, he, _⟩ | ⟨data, he, _⟩
    · subst he
      exact ⟨rfl, by simp [server.Event.isCall], rfl⟩
    · subst he
      exact ⟨rfl, by simp [server.Event.isCall], rfl⟩

/-- C4 as amended, at a message that is too old. -/
theorem forbidden_class_responses_witness :
    server.messageInstanceServer.ServeHTTP demo.collaborators
        { Client := demo.client (none, some .ErrTooOld) (none, none),
          ShowMediaByDefault := false }
        (demo.instanceRequest demo.noMediaUser)
      = [.GetMediaURLs (some demo.noMediaUser) demo.sid,
         .GetMessage (some demo.noMediaUser) demo.sid,
         .Forbidden GoError.ErrTooOld.Error] ∧
    server.statusCode (server.messageInstanceServer.ServeHTTP demo.collaborators
        { Client := demo.client (none, some .ErrTooOld) (none, none),
          ShowMediaByDefault := false }
        (demo.instanceRequest demo.noMediaUser)) = some 403 :=
  ((forbidden_class_responses demo.collaborators).1
    { Client := demo.client (none, some .ErrTooOld) (none, none), ShowMediaByDefault := false }
    (demo.instanceRequest demo.noMediaUser) (some demo.noMediaUser)
    ("/messages/" ++ demo.sid) demo.sid ["MM"] none .ErrTooOld
    (by decide) (by decide) rfl).1 (Or.inr rfl)

/-! ## The cursor codec -/

section Codec

open services base64url


/-- Each 6-bit value is read back from its character. -/
theorem decodeSextet_encodeSextet_fin :
    ∀ n : Fin 64, decodeSextet (encodeSextet n.val) = some n.val := by
  decide

/-- Each 6-bit value is read back from its character. -/
theorem decodeSextet_encodeSextet (n : Nat) (h : n < 64) :
    decodeSextet (encodeSextet n) = some n :=
  decodeSextet_encodeSextet_fin ⟨n, h⟩

/-- Decoding the base64url text of a byte sequence gives the bytes back. -/
theorem decodeChars_encodeBytes (bs : List Byte) : decodeChars (encodeBytes bs) = some bs := by
  induction bs using encodeBytes.induct with
  | case1 => rfl
  | case2 a =>
    have ha := a.isLt
    simp only [encodeBytes, decodeChars, decodeSextet_encodeSextet _ (show a.val / 4 < 64 by omega),
      decodeSextet_encodeSextet _ (show a.val % 4 * 16 < 64 by omega),
      Option.bind_eq_bind, Option.some_bind, Option.pure_def]
    congr 2
    apply Fin.ext
    simp only [byte]
    omega
  | case3 a b =>
    have ha := a.isLt
    have hb := b.isLt
    simp only [encodeBytes, decodeChars, decodeSextet_encodeSextet _ (show a.val / 4 < 64 by omega),
      decodeSextet_encodeSextet _ (show a.val % 4 * 16 + b.val / 16 < 64 by omega),
      decodeSextet_encodeSextet _ (show b.val % 16 * 4 < 64 by omega),
      Option.bind_eq_bind, Option.some_bind, Option.pure_def]
    congr 2
    · apply Fin.ext
      simp only [byte]
      omega
    · congr 1
      apply Fin.ext
      simp only [byte]
      omega
  | case4 a b c rest ih =>
    have ha := a.isLt
    have hb := b.isLt
    have hc := c.isLt
    simp only [encodeBytes, decodeChars, decodeSextet_encodeSextet _ (show a.val / 4 < 64 by omega),
      decodeSextet_encodeSextet _ (show a.val % 4 * 16 + b.val / 16 < 64 by omega),
      decodeSextet_encodeSextet _ (show b.val % 16 * 4 + c.val / 64 < 64 by omega),
      decodeSextet_encodeSextet _ (show c.val % 64 < 64 by omega), ih,
      Option.bind_eq_bind, Option.some_bind, Option.pure_def]
    congr 2
    · apply Fin.ext
      simp only [byte]
      omega
    · congr 1
      · apply Fin.ext
        simp only [byte]
        omega
      · congr 1
        apply Fin.ext
        simp only [byte]
        omega

/-- The base64url text is at least as long as the byte sequence. -/
theorem length_le_encodeBytes (bs : List Byte) : bs.length ≤ (encodeBytes bs).length := by
  induction bs using encodeBytes.induct with
  | case1 => simp [encodeBytes]
  | case2 a => simp [encodeBytes]
  | case3 a b => simp [encodeBytes]
  | case4 a b c rest ih =>
    simp only [encodeBytes, List.length_cons]
    omega

/-- Every character takes at least one byte. -/
theorem length_le_utf8ByteSize_go (cs : List Char) : cs.length ≤ String.utf8ByteSize.go cs := by
  induction cs with
  | nil => simp [String.utf8ByteSize.go]
  | cons c t ih =>
    have := Char.utf8Size_pos c
    simp only [String.utf8ByteSize.go, List.length_cons]
    omega

/-- A string has at most as many characters as bytes. -/
theorem length_le_utf8ByteSize (s : String) : s.length ≤ s.utf8ByteSize := by
  cases s with
  | mk cs => exact length_le_utf8ByteSize_go cs

/-- The token of a plaintext decodes to the plaintext, when the nonce has the
size the primitive asks for and the primitive opens what it sealed. -/
theorem Unopaque_Opaque (A : AEAD) (key : Key) (nonce : List Byte) (plaintext : String)
    (hnonce : nonce.length = A.NonceSize)
    (hopen : A.Open key nonce (A.Seal key nonce plaintext) = some plaintext)
    (hlen : (A.Seal key nonce plaintext).length = plaintext.utf8ByteSize + A.Overhead) :
    Unopaque A (Opaque A nonce plaintext key) key = (plaintext, none) := by
  have hshort : ¬ (nonce ++ A.Seal key nonce plaintext).length < A.NonceSize + A.Overhead := by
    rw [List.length_append, hlen, hnonce]
    omega
  have htake : (nonce ++ A.Seal key nonce plaintext).take A.NonceSize = nonce := by
    rw [← hnonce]
    exact List.take_left' rfl
  have hdrop : (nonce ++ A.Seal key nonce plaintext).drop A.NonceSize
      = A.Seal key nonce plaintext := by
    rw [← hnonce]
    exact List.drop_left' rfl
  simp only [services.Unopaque, services.Opaque, String.toList, decodeChars_encodeBytes, hshort, htake, hdrop,
    hopen, if_false]

/-- The token of a plaintext is longer than the plaintext. -/
theorem length_lt_Opaque (A : AEAD) (key : Key) (nonce : List Byte) (plaintext : String)
    (hnonce : nonce.length = A.NonceSize) (hpos : 0 < A.NonceSize)
    (hlen : (A.Seal key nonce plaintext).length = plaintext.utf8ByteSize + A.Overhead) :
    plaintext.length < (Opaque A nonce plaintext key).length := by
  have h1 := length_le_encodeBytes (nonce ++ A.Seal key nonce plaintext)
  have h2 := length_le_utf8ByteSize plaintext
  rw [List.length_append, hlen, hnonce] at h1
  show plaintext.length < (encodeBytes (nonce ++ A.Seal key nonce plaintext)).length
  omega

end Codec

/-- C8: with `Opaque`, `Unopaque` and `getEncryptedNextPage` as the spec
describes them, over an authenticated encryption that opens what it sealed:
for every key and plaintext `Unopaque(Opaque(plaintext, key), key)` is the
plaintext; and when the page fetch of the list handler succeeds with a page
whose next-page URI is `n`, the rendered `EncryptedNextPage` is not empty,
differs from `n`, and decodes under the secret key to exactly `n`. -/
theorem encrypted_next_page_round_trip (A : services.AEAD) (key : Key) (nonce : List Byte)
    (hnonce : nonce.length = A.NonceSize) (hpos : 0 < A.NonceSize) :
    (∀ plaintext : String,
      A.Open key nonce (A.Seal key nonce plaintext) = some plaintext →
      (A.Seal key nonce plaintext).length = plaintext.utf8ByteSize + A.Overhead →
      services.Unopaque A (services.Opaque A nonce plaintext key) key = (plaintext, none)) ∧
    (∀ (x : server.Extern) (s : server.messageListServer) (r : config.Request)
        (u : config.User) (events : List server.Event) (query : config.Values)
        (page : Option views.MessagePage) (n : String),
      config.GetUser r = (some u, true) → u.CanViewMessages = true →
      s.SecretKey = some key →
      (∀ npuri, x.getEncryptedNextPage npuri (some key)
        = server.getEncryptedNextPage A nonce npuri key) →
      s.fetchPage x u r = .inr (events, query, page, none) →
      x.NextPageURI page = { Valid := true, String := n } →
      A.Open key nonce (A.Seal key nonce n) = some n →
      (A.Seal key nonce n).length = n.utf8ByteSize + A.Overhead →
      ∃ d rerr tail,
        s.ServeHTTP x r = events ++
          [.GetNextMessagePage (some u) n,
           .SetHeader "Content-Type" "text/html; charset=utf-8",
           .render .messageListTemplate (.messageList d) rerr] ++ tail ∧
        d.Page = page ∧
        d.EncryptedNextPage ≠ "" ∧
        d.EncryptedNextPage ≠ n ∧
        services.Unopaque A d.EncryptedNextPage key = (n, none)) := by
  constructor
  · intro plaintext hopen hlen
    exact Unopaque_Opaque A key nonce plaintext hnonce hopen hlen
  · intro x s r u events query page n hu hview hkey hx hfetch huri hopen hlen
    have hlt := length_lt_Opaque A key nonce n hnonce hpos hlen
    have htok : x.getEncryptedNextPage (x.NextPageURI page) s.SecretKey
        = services.Opaque A nonce n key := by
      rw [hkey, hx, huri]
      simp [server.getEncryptedNextPage]
    refine ⟨{ Page := page, Query := query, MaxResourceAge := s.MaxResourceAge, Err := "",
              EncryptedNextPage := services.Opaque A nonce n key },
            x.render .messageListTemplate (.messageList
              { Page := page, Query := query, MaxResourceAge := s.MaxResourceAge, Err := "",
                EncryptedNextPage := services.Opaque A nonce n key }),
            (match x.render .messageListTemplate (.messageList
              { Page := page, Query := query, MaxResourceAge := s.MaxResourceAge, Err := "",
                EncryptedNextPage := services.Opaque A nonce n key }) with
              | some err => s.renderError x 500 query (some err)
              | none => []),
            ?_, rfl, ?_, ?_, Unopaque_Opaque A key nonce n hnonce hopen hlen⟩
    · rw [huri] at htok
      simp only [server.messageListServer.ServeHTTP, hu, hview, hfetch,
        server.messageListServer.respond, huri, htok]
      simp
    · intro h
      simp only at h
      rw [h] at hlt
      simp at hlt
    · intro h
      simp only at h
      rw [h] at hlt
      exact Nat.lt_irrefl _ hlt

/-- C8 at a toy encryption, a key and a next-page URI. -/
theorem encrypted_next_page_round_trip_witness :
    services.Unopaque demo.toyAEAD
      (services.Opaque demo.toyAEAD demo.nonce "/2010-04-01/Messages?Page=1" demo.lastByteKey)
      demo.lastByteKey = ("/2010-04-01/Messages?Page=1", none) :=
  (encrypted_next_page_round_trip demo.toyAEAD demo.lastByteKey demo.nonce
    (by decide) (by decide)).1 "/2010-04-01/Messages?Page=1" (by decide) (by decide)

/-! ## The handlers on concrete requests -/

/-- A user with every capability. -/
theorem theUser_can_view_all :
    server.theUser.CanViewMessages = true ∧ server.theUser.CanViewNumMedia = true ∧
    server.theUser.CanViewMessageFrom = true ∧ server.theUser.CanViewMessageTo = true := by
  decide

/-- For a user with every capability and a message with three media items
the media fetch is joined into the rendered data. -/
theorem media_joined_example :
    server.messageInstanceServer.ServeHTTP demo.collaborators
        { Client := demo.client
            (some { user := server.theUser, sid := demo.sid, numMedia := 3 }, none)
            (none, none),
          ShowMediaByDefault := true }
        (demo.instanceRequest server.theUser)
      = [.GetMediaURLs (some server.theUser) demo.sid,
         .GetMessage (some server.theUser) demo.sid,
         .receiveMedia,
         .SetHeader "Content-Type" "text/html; charset=utf-8",
         .render .messageInstanceTemplate
           (.messageInstance
             { Message := some { user := server.theUser, sid := demo.sid, numMedia := 3 },
               Media := some { Err := none, URLs := ["https://media.example/1"] },
               ShowMediaByDefault := true }) none] := by
  decide

/-- A request with a cursor that decodes to a next-page path fetches that page,
prefetches the page after it and renders the page with the next cursor. -/
theorem next_cursor_example :
    server.messageListServer.ServeHTTP demo.collaborators
        { Client := demo.client (none, none)
            (some { messages := [],
                    nextPageURI := { Valid := true, String := "/2010-04-01/Messages?Page=2" } },
             none),
          PageSize := 50, SecretKey := some demo.lastByteKey, MaxResourceAge := 0 }
        (demo.listRequest server.theUser [("next", ["ok:/2010-04-01/Messages?Page=1"])])
      = [server.Event.Unopaque "ok:/2010-04-01/Messages?Page=1",
         .GetNextMessagePage (some server.theUser) "/2010-04-01/Messages?Page=1",
         .GetNextMessagePage (some server.theUser) "/2010-04-01/Messages?Page=2",
         .SetHeader "Content-Type" "text/html; charset=utf-8",
         .render .messageListTemplate
           (.messageList
             { Page := some { messages := [],
                              nextPageURI :=
                                { Valid := true, String := "/2010-04-01/Messages?Page=2" } },
               EncryptedNextPage := "ok:/2010-04-01/Messages?Page=2",
               Query := [("next", ["ok:/2010-04-01/Messages?Page=1"])],
               Err := "",
               MaxResourceAge := 0 }) none] := by
  decide

/-- The key of thirty-two zero bytes is refused. -/
theorem zero_key_example :
    server.NewServer (fun _ _ => demo.client (none, none) (none, none))
      { PublicHost := "localhost", AllowUnencryptedTraffic := false, Users := [],
        PageSize := 50, SecretKey := some (fun _ => 0), MaxResourceAge := 0,
        ShowMediaByDefault := false }
      config.emptyUserMap = .error "server: nil secret key in settings" := by
  rfl
